import Mathlib

/-!
# MOZAIC — Incident Correlation & Clustering Engine: verification development

Shallow embedding of the MOZAIC dashboard logic
(`New_frontend/src/pages/ProjectDetail.jsx`) together with spec-modelled
definitions for the backend clustering engine components that the repository
snapshot does not include (the Python/FastAPI demo routes and the ML pipeline
itself are absent; only their callers and documentation are present).

Machine numbers are modelled as `Int`/`Nat`/`Rat`; JavaScript values that can
be `null`/`undefined` are modelled with `Option` or small inductive types.
-/

namespace Mozaic

/-! ## Frontend: overview metrics (ProjectDetail.jsx lines 74-83)

`totalPoints = Number(core.num_points || 0)`,
`noisePoints = Number(core.num_noise || 0)`,
`clusteredPoints = Math.max(0, totalPoints - noisePoints)`,
`noiseBreakdown = [{Clustered, clusteredPoints}, {Noise, noisePoints}].filter(x => x.value > 0)`. -/

def clusteredPoints (totalPoints noisePoints : Int) : Int :=
  max 0 (totalPoints - noisePoints)

structure BreakdownEntry where
  name : String
  value : Int
deriving DecidableEq

def noiseBreakdown (totalPoints noisePoints : Int) : List BreakdownEntry :=
  [BreakdownEntry.mk "Clustered" (clusteredPoints totalPoints noisePoints),
   BreakdownEntry.mk "Noise" noisePoints].filter (fun x => decide (0 < x.value))

/-! ## Spec-modelled: Density Clusterer output assignment (spec section 4.5)

Modelled from the spec: the Density Clusterer itself (the Python HDBSCAN
pipeline under `ml/clustering`) is not part of the repository snapshot; only
its README and the dashboard that displays its `ClusteringRun` summary are.
Following the spec, a run assigns each of the N input points either a cluster
id or the noise sentinel; we model the assignment as a list of integer labels
with `-1` meaning noise (the HDBSCAN convention named in the READMEs).
The `ClusteringRun` summary fields are derived from that assignment. -/

def numPoints (labels : List Int) : Nat := labels.length

def numNoise (labels : List Int) : Nat := labels.count (-1)

def clusterIds (labels : List Int) : List Int :=
  (labels.filter (fun c => c != -1)).dedup

def clusterSize (labels : List Int) (c : Int) : Nat := labels.count c

def numClusters (labels : List Int) : Nat := (clusterIds labels).length

lemma count_filter_ne_neg_one (labels : List Int) (c : Int) (hc : c ≠ -1) :
    (labels.filter (fun x => x != -1)).count c = labels.count c := by
  rw [List.count_filter]
  simp [hc]

lemma sum_cluster_sizes (labels : List Int) :
    ((clusterIds labels).map (clusterSize labels)).sum =
      (labels.filter (fun x => x != -1)).length := by
  unfold clusterIds clusterSize
  have hcongr :
      ((labels.filter (fun x => x != -1)).dedup.map (fun c => labels.count c)).sum =
      ((labels.filter (fun x => x != -1)).dedup.map
        (fun c => (labels.filter (fun x => x != -1)).count c)).sum := by
    apply congrArg
    apply List.map_congr_left
    intro c hc
    have hmem : c ∈ labels.filter (fun x => x != -1) := List.mem_dedup.mp hc
    have hne : c ≠ -1 := by
      have := List.of_mem_filter hmem
      simpa using this
    exact (count_filter_ne_neg_one labels c hne).symm
  rw [hcongr, List.sum_map_count_dedup_eq_length]

lemma length_split_noise (labels : List Int) :
    labels.length = labels.count (-1) + (labels.filter (fun x => x != -1)).length := by
  have h := List.length_eq_countP_add_countP (fun x => x == (-1 : Int)) (l := labels)
  have h1 : labels.count (-1) = labels.countP (fun x => x == (-1 : Int)) := by
    simp [List.count]
  have h2 : (labels.filter (fun x => x != -1)).length =
      labels.countP (fun a => decide (¬(a == (-1 : Int)) = true)) := by
    rw [← List.countP_eq_length_filter]
    apply List.countP_congr
    intro x _
    simp [bne]
  rw [h1, h2]
  exact h

/-! ## Frontend: score formatter (ProjectDetail.jsx line 34)

`function fmt(x) { return x === null || x === undefined || Number.isNaN(Number(x))
? '-' : Number(x).toFixed(3) }`

A JavaScript score value is modelled by `JsScore`: `null`, `undefined`,
a finite number, a string that `Number()` parses to a finite number, or any
value whose `Number()` coercion is `NaN`.  The rendered output is modelled by
`FmtOut`: the placeholder dash, or a number rounded to three decimal places
(carried as the integer of thousandths; ECMAScript `toFixed` picks the larger
candidate at exact halves, i.e. rounds half up). -/

inductive JsScore where
  | jsNull
  | jsUndef
  | num (q : Rat)
  | strNum (q : Rat)
  | nan
deriving DecidableEq

def JsScore.isNumeric : JsScore → Bool
  | .num _ => true
  | .strNum _ => true
  | _ => false

inductive FmtOut where
  | dash
  | fixed3 (milli : Int)
deriving DecidableEq

def toFixed3 (q : Rat) : Int := ⌊q * 1000 + 1 / 2⌋

def fmt : JsScore → FmtOut
  | .jsNull => .dash
  | .jsUndef => .dash
  | .nan => .dash
  | .num q => .fixed3 (toFixed3 q)
  | .strNum q => .fixed3 (toFixed3 q)

/-! ## Frontend: severity normalization (ProjectDetail.jsx lines 315-329)

`normalizeSeverity` takes the raw severity of an incoming incident (absent is
modelled as `none`; the JavaScript falsy check `!s` also catches the empty
string) and `normalizedIncidents` maps it over an array payload, any
non-array payload becoming the empty list. -/

def jsToUpper (s : String) : String := ⟨s.data.map Char.toUpper⟩

def normalizeSeverity (s : Option String) : String :=
  match s with
  | none => "P3"
  | some s0 =>
    if s0 = "" then "P3"
    else
      let key := jsToUpper s0
      if key = "P0" ∨ key = "P1" ∨ key = "P2" ∨ key = "P3" then key
      else if key = "CRITICAL" then "P0"
      else if key = "HIGH" then "P1"
      else if key = "MEDIUM" then "P2"
      else if key = "LOW" then "P3"
      else "P3"

structure RawIncident where
  severity : Option String
  rest : String
deriving DecidableEq

inductive IncidentsPayload where
  | arr (l : List RawIncident)
  | nonArray
deriving DecidableEq

def normalizeIncident (inc : RawIncident) : RawIncident :=
  { inc with severity := some (normalizeSeverity inc.severity) }

def normalizedIncidents : IncidentsPayload → List RawIncident
  | .arr l => l.map normalizeIncident
  | .nonArray => []

/-! ## Spec-modelled: silhouette score (spec sections 4.5 and glossary)

Modelled from the spec: the quality-scoring code of the Density Clusterer is
absent from the snapshot.  Per the spec, quality is "a silhouette-style
score over the non-noise assignment"; per point, with `a` the mean distance
to its own cluster and `b` the smallest mean distance to another cluster,
the coefficient is `(b - a) / max a b`, and the run score is the mean
coefficient.  "A run with fewer than two clusters reports the score as
undefined, not zero."  Distances are squared Euclidean over rational
vectors. -/

structure LabeledPoint where
  vec : List Rat
  label : Int
deriving DecidableEq

def distSq (p q : List Rat) : Rat :=
  ((p.zip q).map (fun x => (x.1 - x.2) ^ 2)).sum

def meanQ (l : List Rat) : Rat := l.sum / l.length

def listMin : List Rat → Rat
  | [] => 0
  | x :: xs => xs.foldl min x

def silCoeff (a b : Rat) : Rat :=
  if max a b = 0 then 0 else (b - a) / max a b

def nonNoise (pts : List LabeledPoint) : List LabeledPoint :=
  pts.filter (fun p => p.label != -1)

def runClusterIds (pts : List LabeledPoint) : List Int :=
  ((nonNoise pts).map (fun p => p.label)).dedup

def intraMean (pts : List LabeledPoint) (p : LabeledPoint) : Rat :=
  meanQ (((nonNoise pts).filter (fun q => q.label == p.label)).map
    (fun q => distSq p.vec q.vec))

def nearestOtherMean (pts : List LabeledPoint) (p : LabeledPoint) : Rat :=
  listMin (((runClusterIds pts).filter (fun c => c != p.label)).map (fun c =>
    meanQ (((nonNoise pts).filter (fun q => q.label == c)).map
      (fun q => distSq p.vec q.vec))))

def silhouetteScore (pts : List LabeledPoint) : Option Rat :=
  if (runClusterIds pts).length < 2 then none
  else
    some (meanQ ((nonNoise pts).map
      (fun p => silCoeff (intraMean pts p) (nearestOtherMean pts p))))

lemma distSq_nonneg (p q : List Rat) : 0 ≤ distSq p q := by
  apply List.sum_nonneg
  intro x hx
  obtain ⟨y, _, rfl⟩ := List.mem_map.mp hx
  positivity

lemma meanQ_nonneg (l : List Rat) (h : ∀ x ∈ l, 0 ≤ x) : 0 ≤ meanQ l := by
  unfold meanQ
  apply div_nonneg (List.sum_nonneg h)
  positivity

lemma listMin_nonneg (l : List Rat) (h : ∀ x ∈ l, 0 ≤ x) : 0 ≤ listMin l := by
  match l with
  | [] => exact le_refl 0
  | x :: xs =>
    unfold listMin
    have hx : 0 ≤ x := h x (List.mem_cons_self x xs)
    have hxs : ∀ y ∈ xs, 0 ≤ y := fun y hy => h y (List.mem_cons_of_mem x hy)
    clear h
    induction xs generalizing x with
    | nil => exact hx
    | cons y ys ih =>
      have hy : 0 ≤ y := hxs y (List.mem_cons_self y ys)
      have hys : ∀ z ∈ ys, 0 ≤ z := fun z hz => hxs z (List.mem_cons_of_mem y hz)
      simpa using ih (min x y) (le_min hx hy) hys

lemma silCoeff_bounds (a b : Rat) (ha : 0 ≤ a) (hb : 0 ≤ b) :
    -1 ≤ silCoeff a b ∧ silCoeff a b ≤ 1 := by
  unfold silCoeff
  split
  · constructor <;> norm_num
  · rename_i hne
    have hmaxpos : 0 < max a b := lt_of_le_of_ne (le_max_of_le_left ha) (Ne.symm hne)
    constructor
    · rw [le_div_iff₀ hmaxpos]
      have : a ≤ max a b := le_max_left a b
      nlinarith [hb]
    · rw [div_le_one hmaxpos]
      have : b ≤ max a b := le_max_right a b
      nlinarith [ha]

lemma meanQ_bounds (l : List Rat) (hne : l ≠ [])
    (h : ∀ x ∈ l, -1 ≤ x ∧ x ≤ 1) : -1 ≤ meanQ l ∧ meanQ l ≤ 1 := by
  have hlen : 0 < (l.length : Rat) := by
    have := List.length_pos.mpr hne
    exact_mod_cast this
  have hsum_le : l.sum ≤ (l.length : Rat) * 1 := by
    have := List.sum_le_card_nsmul l 1 (fun x hx => (h x hx).2)
    simpa [nsmul_eq_mul] using this
  have hsum_ge : (l.length : Rat) * (-1) ≤ l.sum := by
    have := List.card_nsmul_le_sum l (-1) (fun x hx => (h x hx).1)
    simpa [nsmul_eq_mul] using this
  unfold meanQ
  constructor
  · rw [le_div_iff₀ hlen]
    nlinarith
  · rw [div_le_one hlen]
    nlinarith

lemma nonNoise_ne_nil_of_two_clusters (pts : List LabeledPoint)
    (h : ¬ (runClusterIds pts).length < 2) : nonNoise pts ≠ [] := by
  intro hnil
  apply h
  unfold runClusterIds
  rw [hnil]
  simp

lemma silhouette_mem_of_some (pts : List LabeledPoint) (s : Rat)
    (h : silhouetteScore pts = some s) : -1 ≤ s ∧ s ≤ 1 := by
  unfold silhouetteScore at h
  split at h
  · exact absurd h (by simp)
  · rename_i hge
    have hne : nonNoise pts ≠ [] := nonNoise_ne_nil_of_two_clusters pts hge
    have hmapne : (nonNoise pts).map
        (fun p => silCoeff (intraMean pts p) (nearestOtherMean pts p)) ≠ [] := by
      simpa using hne
    have hbounds : ∀ x ∈ (nonNoise pts).map
        (fun p => silCoeff (intraMean pts p) (nearestOtherMean pts p)),
        -1 ≤ x ∧ x ≤ 1 := by
      intro x hx
      obtain ⟨p, _, rfl⟩ := List.mem_map.mp hx
      apply silCoeff_bounds
      · apply meanQ_nonneg
        intro y hy
        obtain ⟨q, _, rfl⟩ := List.mem_map.mp hy
        exact distSq_nonneg _ _
      · apply listMin_nonneg
        intro y hy
        obtain ⟨c, _, rfl⟩ := List.mem_map.mp hy
        apply meanQ_nonneg
        intro z hz
        obtain ⟨q, _, rfl⟩ := List.mem_map.mp hz
        exact distSq_nonneg _ _
    have := meanQ_bounds _ hmapne hbounds
    have hs : s = meanQ ((nonNoise pts).map
        (fun p => silCoeff (intraMean pts p) (nearestOtherMean pts p))) := by
      injection h with h
      exact h.symm
    rw [hs]
    exact this

/-! ## Frontend: incident-type ranking (ProjectDetail.jsx lines 118-128, 138-149)

`topIncidentTypes` and the computed branch of `derivedErrorTypes` both build a
count table keyed by `inc?.incident_type || 'unknown'` (the JavaScript falsy
fallback also catches the empty string), add `Number(inc?.event_count || 1)`
per incident (the falsy fallback turns a missing or zero `event_count` into
1), then sort the entries with the comparator `(a, b) => b.count - a.count`
(a stable sort in ECMAScript 2019+) and truncate.  The table keeps
first-encounter key order, which the stable sort preserves among ties. -/

structure DemoIncident where
  incident_type : Option String
  event_count : Option Nat
  end_time : Nat
deriving DecidableEq

def typeKey (t : Option String) : String :=
  match t with
  | none => "unknown"
  | some "" => "unknown"
  | some s => s

def eventWeight (ec : Option Nat) : Nat :=
  match ec with
  | none => 1
  | some 0 => 1
  | some n => n

def bumpCount (k : String) (w : Nat) : List (String × Nat) → List (String × Nat)
  | [] => [(k, w)]
  | (k0, c) :: rest => if k0 = k then (k0, c + w) :: rest else (k0, c) :: bumpCount k w rest

def typeCounts (incs : List DemoIncident) : List (String × Nat) :=
  incs.foldl
    (fun acc inc => bumpCount (typeKey inc.incident_type) (eventWeight inc.event_count) acc) []

def countGE (a b : String × Nat) : Prop := b.2 ≤ a.2

instance : DecidableRel countGE := fun a b => Nat.decLe b.2 a.2

instance : IsTotal (String × Nat) countGE := ⟨fun a b => le_total b.2 a.2⟩

instance : IsTrans (String × Nat) countGE := ⟨fun _ _ _ h1 h2 => le_trans h2 h1⟩

def sortByCountDesc (l : List (String × Nat)) : List (String × Nat) :=
  List.insertionSort countGE l

def topIncidentTypes (incs : List DemoIncident) : List (String × Nat) :=
  (sortByCountDesc (typeCounts incs)).take 6

def derivedErrorTypes (errorTypes : List (String × Nat)) (incs : List DemoIncident) :
    List (String × Nat) :=
  if 0 < errorTypes.length then errorTypes
  else (sortByCountDesc (typeCounts incs)).take 8

/-- Total `event_count` weight contributed to a type key by a list of
incidents; the value each ranking entry is claimed to carry. -/
def specWeight (incs : List DemoIncident) (k : String) : Nat :=
  ((incs.filter (fun i => typeKey i.incident_type == k)).map
    (fun i => eventWeight i.event_count)).sum

/-- Written from the spec's words ("`error_type` = the **most frequent**
`incident_type` string among members"): the number of member incidents
carrying a type key, each member counting once regardless of its
`event_count`.  Compared against the source's weighted ranking. -/
def spec_typeFreq (incs : List DemoIncident) (t : String) : Nat :=
  (incs.filter (fun i => typeKey i.incident_type == t)).length

/-! ## Spec-modelled: cluster error-type labelling (spec section 4.6)

Modelled from the spec: the Severity & Label Assigner is absent from the
snapshot.  Per the spec, a cluster's `error_type` is the most frequent
`incident_type` string among member incidents, ties broken by the most
recent `end_time`. -/

def typeMaxEnd (ms : List DemoIncident) (t : String) : Nat :=
  ((ms.filter (fun i => typeKey i.incident_type == t)).map
    (fun i => i.end_time)).foldl max 0

def betterType (ms : List DemoIncident) (t1 t2 : String) : Bool :=
  decide (spec_typeFreq ms t2 < spec_typeFreq ms t1) ||
    (decide (spec_typeFreq ms t1 = spec_typeFreq ms t2) &&
      decide (typeMaxEnd ms t2 < typeMaxEnd ms t1))

def memberTypeKeys (ms : List DemoIncident) : List String :=
  (ms.map (fun i => typeKey i.incident_type)).dedup

def clusterErrorType (ms : List DemoIncident) : String :=
  match memberTypeKeys ms with
  | [] => "unknown"
  | t :: ts => ts.foldl (fun best t2 => if betterType ms t2 best then t2 else best) t

/-! ### Lemmas about the count table and the ranking -/

def lookCount (acc : List (String × Nat)) (k : String) : Nat :=
  ((acc.filter (fun e => e.1 == k)).map (fun e => e.2)).sum

lemma lookCount_nil (k : String) : lookCount [] k = 0 := by
  simp [lookCount]

lemma lookCount_cons (k0 : String) (c : Nat) (rest : List (String × Nat)) (k2 : String) :
    lookCount ((k0, c) :: rest) k2 = (if k0 = k2 then c else 0) + lookCount rest k2 := by
  by_cases h : k0 = k2 <;> simp [lookCount, h]

lemma lookCount_bumpCount (k : String) (w : Nat) (acc : List (String × Nat)) (k2 : String) :
    lookCount (bumpCount k w acc) k2 = lookCount acc k2 + (if k2 = k then w else 0) := by
  induction acc with
  | nil =>
    show lookCount [(k, w)] k2 = lookCount [] k2 + (if k2 = k then w else 0)
    rw [lookCount_cons, lookCount_nil]
    by_cases h : k2 = k
    · subst h
      simp
    · have hs : ¬ k = k2 := fun hh => h hh.symm
      rw [if_neg hs, if_neg h]
  | cons e rest ih =>
    obtain ⟨k0, c⟩ := e
    by_cases h0 : k0 = k
    · subst h0
      have hb : bumpCount k0 w ((k0, c) :: rest) = (k0, c + w) :: rest := by
        simp [bumpCount]
      rw [hb, lookCount_cons, lookCount_cons]
      by_cases h2 : k0 = k2
      · subst h2
        split_ifs <;> omega
      · have h2s : ¬ k2 = k0 := fun hh => h2 hh.symm
        simp [h2, h2s]
    · have hb : bumpCount k w ((k0, c) :: rest) = (k0, c) :: bumpCount k w rest := by
        simp [bumpCount, h0]
      rw [hb, lookCount_cons, lookCount_cons, ih]
      omega

lemma specWeight_cons (i : DemoIncident) (incs : List DemoIncident) (k : String) :
    specWeight (i :: incs) k =
      (if typeKey i.incident_type = k then eventWeight i.event_count else 0) +
        specWeight incs k := by
  by_cases h : typeKey i.incident_type = k <;> simp [specWeight, h]

lemma lookCount_foldl (incs : List DemoIncident) (acc : List (String × Nat)) (k : String) :
    lookCount (incs.foldl
      (fun a inc => bumpCount (typeKey inc.incident_type) (eventWeight inc.event_count) a) acc) k
    = lookCount acc k + specWeight incs k := by
  induction incs generalizing acc with
  | nil => simp [specWeight, lookCount]
  | cons i rest ih =>
    rw [List.foldl_cons, ih, lookCount_bumpCount, specWeight_cons]
    by_cases h : typeKey i.incident_type = k
    · simp only [h, if_pos rfl]
      omega
    · have hs : ¬ k = typeKey i.incident_type := fun hh => h hh.symm
      simp [h, hs]

lemma lookCount_typeCounts (incs : List DemoIncident) (k : String) :
    lookCount (typeCounts incs) k = specWeight incs k := by
  unfold typeCounts
  rw [lookCount_foldl]
  simp [lookCount]

lemma keys_bumpCount (k : String) (w : Nat) (acc : List (String × Nat)) :
    (bumpCount k w acc).map Prod.fst =
      if k ∈ acc.map Prod.fst then acc.map Prod.fst else acc.map Prod.fst ++ [k] := by
  induction acc with
  | nil => simp [bumpCount]
  | cons e rest ih =>
    obtain ⟨k0, c⟩ := e
    by_cases h0 : k0 = k
    · subst h0
      simp [bumpCount]
    · simp only [bumpCount, if_neg h0, List.map_cons, ih]
      have hne : ¬ k = k0 := fun hh => h0 hh.symm
      by_cases hmem : k ∈ rest.map Prod.fst <;>
        simp [hmem, hne, List.mem_cons]

lemma nodup_keys_bumpCount (k : String) (w : Nat) (acc : List (String × Nat))
    (h : (acc.map Prod.fst).Nodup) : ((bumpCount k w acc).map Prod.fst).Nodup := by
  rw [keys_bumpCount]
  by_cases hmem : k ∈ acc.map Prod.fst
  · simpa [hmem] using h
  · simp only [if_neg hmem]
    rw [List.nodup_append]
    refine ⟨h, List.nodup_singleton k, ?_⟩
    intro a ha hak
    simp only [List.mem_singleton] at hak
    subst hak
    exact hmem ha

lemma nodup_keys_typeCounts (incs : List DemoIncident) :
    ((typeCounts incs).map Prod.fst).Nodup := by
  unfold typeCounts
  suffices h : ∀ acc : List (String × Nat), (acc.map Prod.fst).Nodup →
      ((incs.foldl (fun a inc =>
        bumpCount (typeKey inc.incident_type) (eventWeight inc.event_count) a) acc).map
        Prod.fst).Nodup by
    exact h [] (by simp)
  induction incs with
  | nil => intro acc hacc; simpa using hacc
  | cons i rest ih =>
    intro acc hacc
    rw [List.foldl_cons]
    exact ih _ (nodup_keys_bumpCount _ _ _ hacc)

lemma lookCount_eq_zero_of_not_mem (acc : List (String × Nat)) (k : String)
    (h : k ∉ acc.map Prod.fst) : lookCount acc k = 0 := by
  induction acc with
  | nil => simp [lookCount]
  | cons e rest ih =>
    obtain ⟨k0, c⟩ := e
    simp only [List.map_cons, List.mem_cons] at h
    push_neg at h
    have hne : ¬ k0 = k := fun hh => h.1 hh.symm
    simp only [lookCount, List.filter_cons, beq_iff_eq, hne]
    simpa [lookCount] using ih h.2

lemma mem_eq_lookCount (acc : List (String × Nat)) (k : String) (c : Nat)
    (hmem : (k, c) ∈ acc) (hnd : (acc.map Prod.fst).Nodup) : c = lookCount acc k := by
  induction acc with
  | nil => simp at hmem
  | cons e rest ih =>
    obtain ⟨k0, c0⟩ := e
    simp only [List.map_cons, List.nodup_cons] at hnd
    rcases List.mem_cons.mp hmem with heq | htail
    · injection heq with h1 h2
      subst h1
      subst h2
      have hz : lookCount rest k = 0 :=
        lookCount_eq_zero_of_not_mem rest k hnd.1
      rw [lookCount_cons, hz, if_pos rfl]
      omega
    · have hkne : ¬ k0 = k := by
        intro hh
        subst hh
        exact hnd.1 (List.mem_map.mpr ⟨(k0, c), htail, rfl⟩)
      rw [lookCount_cons, if_neg hkne]
      simpa using ih htail hnd.2

lemma mem_typeCounts_specWeight (incs : List DemoIncident) (k : String) (c : Nat)
    (hmem : (k, c) ∈ typeCounts incs) : c = specWeight incs k := by
  rw [mem_eq_lookCount _ _ _ hmem (nodup_keys_typeCounts incs)]
  exact lookCount_typeCounts incs k

lemma sorted_sortByCountDesc (l : List (String × Nat)) :
    List.Sorted countGE (sortByCountDesc l) :=
  List.sorted_insertionSort countGE l

lemma mem_sortByCountDesc (l : List (String × Nat)) (e : String × Nat) :
    e ∈ sortByCountDesc l ↔ e ∈ l :=
  (List.perm_insertionSort countGE l).mem_iff

/-! ### Lemmas about the spec-modelled cluster labeler -/

lemma betterType_eq_true_iff (ms : List DemoIncident) (a b : String) :
    betterType ms a b = true ↔
      (spec_typeFreq ms b < spec_typeFreq ms a ∨
        (spec_typeFreq ms a = spec_typeFreq ms b ∧ typeMaxEnd ms b < typeMaxEnd ms a)) := by
  simp [betterType]

lemma betterType_false_iff (ms : List DemoIncident) (a b : String) :
    betterType ms a b = false ↔
      ¬ (spec_typeFreq ms b < spec_typeFreq ms a ∨
        (spec_typeFreq ms a = spec_typeFreq ms b ∧ typeMaxEnd ms b < typeMaxEnd ms a)) := by
  rw [← Bool.not_eq_true, betterType_eq_true_iff]

lemma betterType_foldl_false (ms : List DemoIncident) (ts : List String) (b : String) :
    ∀ u, (u = b ∨ u ∈ ts) →
      betterType ms u
        (ts.foldl (fun best t2 => if betterType ms t2 best then t2 else best) b) = false := by
  induction ts generalizing b with
  | nil =>
    intro u hu
    rcases hu with heq | hu
    · rw [heq]
      simp only [List.foldl_nil]
      rw [betterType_false_iff]
      omega
    · simp at hu
  | cons t2 rest ih =>
    intro u hu
    rw [List.foldl_cons]
    by_cases hstep : betterType ms t2 b = true
    · rw [if_pos hstep]
      rcases hu with heq | hu
      · rw [heq]
        have ht2 := ih t2 t2 (Or.inl rfl)
        rw [betterType_false_iff] at ht2 ⊢
        rw [betterType_eq_true_iff] at hstep
        omega
      · rcases List.mem_cons.mp hu with heq | hu2
        · exact ih t2 u (Or.inl heq)
        · exact ih t2 u (Or.inr hu2)
    · rw [if_neg hstep]
      rcases hu with heq | hu
      · exact ih b u (Or.inl heq)
      · rcases List.mem_cons.mp hu with heq | hu2
        · rw [heq]
          have hbres := ih b b (Or.inl rfl)
          rw [betterType_false_iff] at hbres ⊢
          rw [betterType_eq_true_iff] at hstep
          omega
        · exact ih b u (Or.inr hu2)

lemma clusterErrorType_max (ms : List DemoIncident) :
    ∀ t ∈ memberTypeKeys ms, betterType ms t (clusterErrorType ms) = false := by
  intro t ht
  unfold clusterErrorType
  cases hk : memberTypeKeys ms with
  | nil => rw [hk] at ht; simp at ht
  | cons t0 ts =>
    rw [hk] at ht
    rcases List.mem_cons.mp ht with rfl | hmem
    · exact betterType_foldl_false ms ts t t (Or.inl rfl)
    · exact betterType_foldl_false ms ts t0 t (Or.inr hmem)

lemma foldl_choice_mem (ms : List DemoIncident) (ts : List String) (b : String) :
    ts.foldl (fun best t2 => if betterType ms t2 best then t2 else best) b ∈ b :: ts := by
  induction ts generalizing b with
  | nil => simp
  | cons t2 rest ih =>
    rw [List.foldl_cons]
    by_cases hstep : betterType ms t2 b = true
    · rw [if_pos hstep]
      have := ih t2
      rcases List.mem_cons.mp this with h | h
      · rw [h]; simp
      · simp [List.mem_cons, h]
    · rw [if_neg hstep]
      have := ih b
      rcases List.mem_cons.mp this with h | h
      · rw [h]; simp
      · simp [List.mem_cons, h]

lemma clusterErrorType_mem (ms : List DemoIncident) (h : memberTypeKeys ms ≠ []) :
    clusterErrorType ms ∈ memberTypeKeys ms := by
  unfold clusterErrorType
  cases hk : memberTypeKeys ms with
  | nil => exact absurd hk h
  | cons t0 ts => exact foldl_choice_mem ms ts t0

/-! ## Frontend: demo-data refresh (ProjectDetail.jsx lines 271-301)

`fetchDemoData` issues the three listing requests with `Promise.allSettled`.
Each request outcome is modelled as `Option` (`none` = rejected).  The code
throws when all three fail (then the catch branch clears all three listings
and sets the unreachable message); otherwise each listing is set from its
request via `pickData` whose fallback is the empty payload, and a
partial-results message is set when at least one request was rejected.  The
previous state is accepted as an argument to make explicit that the code
never reads it. -/

structure DemoDataState where
  clusters : List String
  errorTypes : List String
  logSamples : List String
  demoError : String
deriving DecidableEq

def msgAllFailed : String := "Demo API not reachable. Please start the backend demo routes."

def msgPartial : String := "Some demo data could not be loaded. Showing partial results."

def fetchDemoData (prev : DemoDataState)
    (clustersRes errorTypesRes samplesRes : Option (List String)) : DemoDataState :=
  if clustersRes.isNone && errorTypesRes.isNone && samplesRes.isNone then
    { clusters := [], errorTypes := [], logSamples := [], demoError := msgAllFailed }
  else
    { clusters := clustersRes.getD [], errorTypes := errorTypesRes.getD [],
      logSamples := samplesRes.getD [],
      demoError :=
        if clustersRes.isNone || errorTypesRes.isNone || samplesRes.isNone then msgPartial
        else "" }

/-! ## Frontend: incident-evidence pagination (ProjectDetail.jsx lines 64-65, 193-211, 867-886)

`fetchIncidentEventsPage(nextOffset)` sends `offset=${Math.max(0, nextOffset)}`
and stores `Math.max(0, nextOffset)`; the Prev button calls it with
`offset - limit` and is disabled when `offset <= 0 || loading`; the Next
button calls it with `offset + limit` and is disabled when
`offset + limit >= total || loading`. -/

def incidentEventsLimit : Int := 20

def pageRequestOffset (nextOffset : Int) : Int := max 0 nextOffset

def pageStoredOffset (nextOffset : Int) : Int := max 0 nextOffset

def prevDisabled (offset : Int) (loading : Bool) : Bool :=
  decide (offset ≤ 0) || loading

def nextDisabled (offset total : Int) (loading : Bool) : Bool :=
  decide (offset + incidentEventsLimit ≥ total) || loading

inductive PageNav where
  | prev
  | next
deriving DecidableEq

def navStep (total offset : Int) : PageNav → Int
  | .prev =>
    if prevDisabled offset false then offset
    else pageStoredOffset (offset - incidentEventsLimit)
  | .next =>
    if nextDisabled offset total false then offset
    else pageStoredOffset (offset + incidentEventsLimit)

def navRun (total : Int) (acts : List PageNav) : Int :=
  acts.foldl (navStep total) 0

/-! ## Spec-modelled: Resolution Advisor (spec section 4.7)

Modelled from the spec: the `/solution` demo route's handler is absent from
the snapshot (only the dashboard's `handleGetSolution` caller is present).
Per the spec, the advisor is a pure lookup: given `(error_type, severity)`
it returns an ordered, non-empty `recommended_actions` list plus a `note`;
when no exact match exists for the error type, it falls back to a generic
action set for the severity tier instead of failing, so no `NoMatchError`
ever reaches the caller. -/

structure Solution where
  recommended_actions : List String
  note : String
deriving DecidableEq

def genericActions (severity : String) : List String :=
  if severity = "P0" then
    ["Page the on-call engineer immediately",
     "Check recent deploys and roll back if correlated",
     "Verify service health dashboards"]
  else if severity = "P1" then
    ["Acknowledge the incident and assign an owner",
     "Inspect error-rate and latency panels",
     "Prepare a rollback plan"]
  else if severity = "P2" then
    ["Review the affected service logs",
     "Open a tracking ticket"]
  else
    ["Monitor the signal",
     "Review during business hours"]

def knownSolutions : List (String × List String) :=
  [("OOMKilled",
    ["Increase the container memory limit", "Profile memory usage for leaks"]),
   ("CrashLoopBackOff",
    ["Inspect container logs for the crash cause", "Check recent image or config changes"]),
   ("HighErrorRate",
    ["Check upstream dependencies", "Roll back the latest deploy"])]

def getSolution (error_type severity : String) : Solution :=
  match knownSolutions.lookup error_type with
  | some acts =>
    { recommended_actions := acts,
      note := "Matched a known resolution for " ++ error_type }
  | none =>
    { recommended_actions := genericActions severity,
      note := "No exact match for " ++ error_type ++
        "; generic guidance for severity tier " ++ severity }

/-! ## Spec-modelled: incident severity under event appends (spec sections 4.2-4.3)

Modelled from the spec: the Temporal Correlator / severity derivation is
absent from the snapshot.  Four ordinal tiers, most severe first; an
incident's severity is the most severe tier among its member events'
`severity_hint`, unknown hints defaulting to tier-3; it is re-evaluated on
every append. -/

inductive Tier where
  | P0
  | P1
  | P2
  | P3
deriving DecidableEq

def Tier.rank : Tier → Nat
  | .P0 => 0
  | .P1 => 1
  | .P2 => 2
  | .P3 => 3

def hintTier (hint : Option String) : Tier :=
  match hint with
  | some "CRITICAL" => .P0
  | some "HIGH" => .P1
  | some "MEDIUM" => .P2
  | some "LOW" => .P3
  | _ => .P3

def moreSevere (a b : Tier) : Tier := if a.rank ≤ b.rank then a else b

structure SpecIncident where
  severity : Tier
  eventHints : List (Option String)
deriving DecidableEq

def appendEvent (inc : SpecIncident) (hint : Option String) : SpecIncident :=
  { eventHints := inc.eventHints ++ [hint],
    severity := moreSevere inc.severity (hintTier hint) }

/-! ## Spec-modelled: Embedding Provider (spec section 4.4)

Modelled from the spec: the Sentence-BERT embedding step of the pipeline is
absent from the snapshot.  Contract: a deterministic function
`text -> fixed-length vector`.  The model folds character codes into a
fixed number of buckets; what matters for the claims is that it is a pure
function of the text with a constant output dimension. -/

def embedDim : Nat := 8

def embedText (t : String) : List Int :=
  (List.range embedDim).map (fun k =>
    t.data.enum.foldl
      (fun acc p => if p.1 % embedDim = k then acc + (p.2.toNat : Int) else acc) 0)

/-! ## Claim theorems -/

/-- C1: every ClusteringRun summary satisfies the exact partition invariant
`num_points = num_noise + Σ cluster.size` (no double-counting, no loss), and
the dashboard's derived clustered-point count `max(0, num_points - num_noise)`
is non-negative for every numeric overview payload. -/
theorem C1_clustering_partition :
    (∀ labels : List Int,
      numPoints labels = numNoise labels + ((clusterIds labels).map (clusterSize labels)).sum) ∧
    (∀ totalPoints noisePoints : Int, 0 ≤ clusteredPoints totalPoints noisePoints) := by
  constructor
  · intro labels
    unfold numPoints numNoise
    rw [sum_cluster_sizes]
    exact length_split_noise labels
  · intro totalPoints noisePoints
    exact le_max_left 0 _

/-- C2: a clustering run with fewer than two clusters reports the silhouette
score as undefined (never zero); whenever the score is defined it lies in
[-1, 1]; and the display formatter `fmt` renders every null, undefined or
non-numeric score as the dash placeholder and every numeric score rounded to
three decimal places. -/
theorem C2_silhouette_and_fmt :
    (∀ pts : List LabeledPoint, (runClusterIds pts).length < 2 → silhouetteScore pts = none) ∧
    (∀ (pts : List LabeledPoint) (s : Rat), silhouetteScore pts = some s → -1 ≤ s ∧ s ≤ 1) ∧
    (∀ v : JsScore, v.isNumeric = false → fmt v = FmtOut.dash) ∧
    (∀ q : Rat, fmt (JsScore.num q) = FmtOut.fixed3 (toFixed3 q)) ∧
    (∀ q : Rat, fmt (JsScore.strNum q) = FmtOut.fixed3 (toFixed3 q)) := by
  refine ⟨?_, silhouette_mem_of_some, ?_, fun q => rfl, fun q => rfl⟩
  · intro pts h
    unfold silhouetteScore
    rw [if_pos h]
  · intro v hv
    cases v <;> first | rfl | (simp [JsScore.isNumeric] at hv)

def silhouetteWitnessPts : List LabeledPoint :=
  [LabeledPoint.mk [0] 0, LabeledPoint.mk [1] 1]

/-- Witness for C2 at concrete inputs: the empty snapshot has an undefined
score, a two-singleton-cluster snapshot scores 1 which is within bounds, and
a null score is rendered as the dash. -/
theorem C2_witness :
    silhouetteScore [] = none ∧ (-1 ≤ (1 : Rat) ∧ (1 : Rat) ≤ 1) ∧
      fmt JsScore.jsNull = FmtOut.dash :=
  ⟨C2_silhouette_and_fmt.1 [] (by decide),
   C2_silhouette_and_fmt.2.1 silhouetteWitnessPts 1 (by
     norm_num [silhouetteScore, silhouetteWitnessPts, runClusterIds, nonNoise, intraMean,
       nearestOtherMean, listMin, silCoeff, distSq, meanQ, List.dedup, List.pwFilter]),
   C2_silhouette_and_fmt.2.2.1 JsScore.jsNull rfl⟩

/-- C3: every severity arriving at the query surface normalizes to one of
exactly four ordinal tiers P0-P3; an absent or unrecognized severity hint
defaults to P3; and the source-native aliases CRITICAL, HIGH, MEDIUM, LOW
map case-insensitively to P0, P1, P2, P3 respectively. -/
theorem C3_severity_tiers :
    (∀ s : Option String,
      normalizeSeverity s = "P0" ∨ normalizeSeverity s = "P1" ∨
        normalizeSeverity s = "P2" ∨ normalizeSeverity s = "P3") ∧
    normalizeSeverity none = "P3" ∧
    normalizeSeverity (some "") = "P3" ∧
    (∀ s : String, jsToUpper s = "CRITICAL" → normalizeSeverity (some s) = "P0") ∧
    (∀ s : String, jsToUpper s = "HIGH" → normalizeSeverity (some s) = "P1") ∧
    (∀ s : String, jsToUpper s = "MEDIUM" → normalizeSeverity (some s) = "P2") ∧
    (∀ s : String, jsToUpper s = "LOW" → normalizeSeverity (some s) = "P3") ∧
    (∀ s : String,
      jsToUpper s ∉ (["P0", "P1", "P2", "P3", "CRITICAL", "HIGH", "MEDIUM", "LOW"] : List String) →
      normalizeSeverity (some s) = "P3") := by
  refine ⟨?_, rfl, rfl, ?_, ?_, ?_, ?_, ?_⟩
  · intro s
    cases s with
    | none => simp [normalizeSeverity]
    | some s0 =>
      by_cases he : s0 = ""
      · simp [normalizeSeverity, he]
      · simp only [normalizeSeverity, if_neg he]
        split_ifs with h1 h2 h3 h4 h5
        · rcases h1 with h | h | h | h <;> simp [h]
        · simp
        · simp
        · simp
        · simp
        · simp
  · intro s h
    have he : s ≠ "" := by
      intro hh
      rw [hh] at h
      exact absurd h (by decide)
    simp only [normalizeSeverity, if_neg he, h]
    decide
  · intro s h
    have he : s ≠ "" := by
      intro hh
      rw [hh] at h
      exact absurd h (by decide)
    simp only [normalizeSeverity, if_neg he, h]
    decide
  · intro s h
    have he : s ≠ "" := by
      intro hh
      rw [hh] at h
      exact absurd h (by decide)
    simp only [normalizeSeverity, if_neg he, h]
    decide
  · intro s h
    have he : s ≠ "" := by
      intro hh
      rw [hh] at h
      exact absurd h (by decide)
    simp only [normalizeSeverity, if_neg he, h]
    decide
  · intro s hs
    by_cases he : s = ""
    · simp [normalizeSeverity, he]
    · simp only [normalizeSeverity, if_neg he]
      simp only [List.mem_cons, List.mem_singleton, not_or] at hs
      split_ifs with h1 h2 h3 h4 h5
      · exact absurd h1 (by
          push_neg
          exact ⟨hs.1, hs.2.1, hs.2.2.1, hs.2.2.2.1⟩)
      · exact absurd h2 hs.2.2.2.2.1
      · exact absurd h3 hs.2.2.2.2.2.1
      · exact absurd h4 hs.2.2.2.2.2.2.1
      · exact absurd h5 hs.2.2.2.2.2.2.2.1
      · rfl

/-- Witness for C3 at concrete inputs: a lower-case alias maps to P0 and an
unrecognized hint defaults to P3. -/
theorem C3_witness :
    normalizeSeverity (some "critical") = "P0" ∧
      normalizeSeverity (some "strange-hint") = "P3" :=
  ⟨C3_severity_tiers.2.2.2.1 "critical" (by decide),
   C3_severity_tiers.2.2.2.2.2.2.2 "strange-hint" (by decide)⟩

def incsC4 : List DemoIncident :=
  [DemoIncident.mk (some "A") (some 5) 1,
   DemoIncident.mk (some "B") (some 1) 3,
   DemoIncident.mk (some "B") (some 1) 2,
   DemoIncident.mk (some "C") (some 2) 9]

/-- C4 counterexample: on this incident list, type B occurs in two incidents
and type A in only one, yet the produced ranking lists A first because the
code weights each type by summed `event_count` (5 for A versus 2 for B), not
by incident frequency; moreover B and C tie at weight 2 and C has the more
recent `end_time` (9 versus 3) yet is listed after B, because ties keep
first-encounter order instead of being broken by recency. -/
theorem C4_counterexample :
    derivedErrorTypes [] incsC4 = [("A", 5), ("B", 2), ("C", 2)] ∧
    spec_typeFreq incsC4 "B" = 2 ∧
    spec_typeFreq incsC4 "A" = 1 ∧
    typeMaxEnd incsC4 "C" = 9 ∧
    typeMaxEnd incsC4 "B" = 3 := by
  refine ⟨?_, ?_, ?_, ?_, ?_⟩ <;> decide

/-- C4 amended: the spec-modelled cluster labeler does pick a member type
key that no other member type key beats on (frequency, then most recent
end_time); but the dashboard's derived error-type ranking
(`derivedErrorTypes` in its computed branch, and `topIncidentTypes`) is
ordered by the summed `event_count` weight of each type (a missing or zero
`event_count` counting as 1), heaviest first, with ties kept in
first-encounter order — not by incident frequency with recency
tie-breaks. -/
theorem C4_error_type_ranking :
    (∀ ms : List DemoIncident, memberTypeKeys ms ≠ [] →
      clusterErrorType ms ∈ memberTypeKeys ms) ∧
    (∀ ms : List DemoIncident, ∀ t ∈ memberTypeKeys ms,
      betterType ms t (clusterErrorType ms) = false) ∧
    (∀ incs : List DemoIncident, List.Sorted countGE (derivedErrorTypes [] incs)) ∧
    (∀ incs : List DemoIncident, ∀ e ∈ derivedErrorTypes [] incs,
      e.2 = specWeight incs e.1) ∧
    (∀ incs : List DemoIncident, List.Sorted countGE (topIncidentTypes incs)) ∧
    (∀ incs : List DemoIncident, ∀ e ∈ topIncidentTypes incs,
      e.2 = specWeight incs e.1) := by
  have hsortTake : ∀ (n : Nat) (l : List (String × Nat)),
      List.Sorted countGE ((sortByCountDesc l).take n) := by
    intro n l
    exact List.Pairwise.sublist (List.take_sublist n _) (sorted_sortByCountDesc l)
  have hmemTake : ∀ (n : Nat) (incs : List DemoIncident) (e : String × Nat),
      e ∈ (sortByCountDesc (typeCounts incs)).take n → e.2 = specWeight incs e.1 := by
    intro n incs e he
    have h1 : e ∈ sortByCountDesc (typeCounts incs) := List.take_subset n _ he
    have h2 : e ∈ typeCounts incs := (mem_sortByCountDesc _ e).mp h1
    obtain ⟨k, c⟩ := e
    exact mem_typeCounts_specWeight incs k c h2
  refine ⟨clusterErrorType_mem, clusterErrorType_max, ?_, ?_, ?_, ?_⟩
  · intro incs
    unfold derivedErrorTypes
    simp only [List.length_nil, lt_irrefl, if_false]
    exact hsortTake 8 _
  · intro incs e he
    unfold derivedErrorTypes at he
    simp only [List.length_nil, lt_irrefl, if_false] at he
    exact hmemTake 8 incs e he
  · intro incs
    unfold topIncidentTypes
    exact hsortTake 6 _
  · intro incs e he
    unfold topIncidentTypes at he
    exact hmemTake 6 incs e he

/-- Witness for C4's amended theorem at the concrete incident list: the chosen
cluster label is a member type key no other key beats, and the head ranking
entry carries exactly the summed event weight of its type. -/
theorem C4_ranking_witness :
    clusterErrorType incsC4 ∈ memberTypeKeys incsC4 ∧
    betterType incsC4 "A" (clusterErrorType incsC4) = false ∧
    (("A", 5) : String × Nat).2 = specWeight incsC4 ("A", 5).1 :=
  ⟨C4_error_type_ranking.1 incsC4 (by decide),
   C4_error_type_ranking.2.1 incsC4 "A" (by decide),
   C4_error_type_ranking.2.2.2.1 incsC4 ("A", 5) (by decide)⟩

lemma genericActions_ne_nil (severity : String) : genericActions severity ≠ [] := by
  unfold genericActions
  split_ifs <;> simp

lemma knownSolutions_vals_ne_nil (et : String) (acts : List String)
    (h : knownSolutions.lookup et = some acts) : acts ≠ [] := by
  unfold knownSolutions at h
  simp only [List.lookup] at h
  split at h
  · injection h with h
    subst h
    simp
  · split at h
    · injection h with h
      subst h
      simp
    · split at h
      · injection h with h
        subst h
        simp
      · exact absurd h (by simp [List.lookup])

/-- C5: the Resolution Advisor returns a non-empty ordered action list for
every `(error_type, severity)` input — including never-seen error types,
where it falls back to the generic action set for the severity tier instead
of failing, so no `NoMatchError` reaches the caller. -/
theorem C5_resolution_advisor :
    (∀ error_type severity : String,
      (getSolution error_type severity).recommended_actions ≠ []) ∧
    (∀ severity : String, genericActions severity ≠ []) ∧
    (∀ error_type severity : String, knownSolutions.lookup error_type = none →
      (getSolution error_type severity).recommended_actions = genericActions severity) := by
  refine ⟨?_, genericActions_ne_nil, ?_⟩
  · intro et sev
    unfold getSolution
    cases h : knownSolutions.lookup et with
    | none => exact genericActions_ne_nil sev
    | some acts => exact knownSolutions_vals_ne_nil et acts h
  · intro et sev h
    unfold getSolution
    rw [h]

/-- Witness for C5 at a concrete never-seen error type: the result is
non-empty and equals the generic fallback for the severity tier. -/
theorem C5_witness :
    (getSolution "TotallyNovelFailure" "P1").recommended_actions ≠ [] ∧
    (getSolution "TotallyNovelFailure" "P1").recommended_actions = genericActions "P1" :=
  ⟨C5_resolution_advisor.1 "TotallyNovelFailure" "P1",
   C5_resolution_advisor.2.2 "TotallyNovelFailure" "P1" (by decide)⟩

def prevDemoState : DemoDataState :=
  DemoDataState.mk ["cluster-1"] ["err-1"] ["sample-1"] ""

/-- C6 counterexample: when the clusters request of a refresh fails while the
other two succeed, the previously published cluster listing is replaced by
the empty fallback rather than left intact. -/
theorem C6_counterexample :
    (fetchDemoData prevDemoState none (some ["err-2"]) (some ["sample-2"])).clusters = [] ∧
    prevDemoState.clusters = ["cluster-1"] ∧
    (fetchDemoData prevDemoState none (some ["err-2"]) (some ["sample-2"])).clusters ≠
      prevDemoState.clusters := by
  refine ⟨?_, ?_, ?_⟩ <;> decide

/-- C6 amended: a demo-data refresh is isolated per request — each listing is
set to exactly its own request's payload when that request fulfills,
unaffected by failures of the other two, and is reset to the empty fallback
when its request rejects; the previous listings are not retained.  The error
notice is the unreachable message when all three requests fail, the
partial-results message when some but not all fail, and empty when all
succeed. -/
theorem C6_per_request_isolation :
    ∀ (prev : DemoDataState) (rc re rs : Option (List String)),
    ((∀ l, rc = some l → (fetchDemoData prev rc re rs).clusters = l) ∧
     (rc = none → (fetchDemoData prev rc re rs).clusters = [])) ∧
    ((∀ l, re = some l → (fetchDemoData prev rc re rs).errorTypes = l) ∧
     (re = none → (fetchDemoData prev rc re rs).errorTypes = [])) ∧
    ((∀ l, rs = some l → (fetchDemoData prev rc re rs).logSamples = l) ∧
     (rs = none → (fetchDemoData prev rc re rs).logSamples = [])) ∧
    (rc = none ∧ re = none ∧ rs = none →
      (fetchDemoData prev rc re rs).demoError = msgAllFailed) ∧
    ((rc.isSome ∨ re.isSome ∨ rs.isSome) → (rc = none ∨ re = none ∨ rs = none) →
      (fetchDemoData prev rc re rs).demoError = msgPartial) ∧
    (rc.isSome ∧ re.isSome ∧ rs.isSome → (fetchDemoData prev rc re rs).demoError = "") := by
  intro prev rc re rs
  cases rc <;> cases re <;> cases rs <;>
    simp [fetchDemoData]

/-- Witness for C6's amended theorem at concrete request outcomes: fulfilled
listings carry their payloads, the failed one is emptied, and the
partial-results notice is set. -/
theorem C6_isolation_witness :
    (fetchDemoData prevDemoState none (some ["err-2"]) (some ["sample-2"])).errorTypes =
        ["err-2"] ∧
    (fetchDemoData prevDemoState none (some ["err-2"]) (some ["sample-2"])).demoError =
        msgPartial :=
  ⟨(C6_per_request_isolation prevDemoState none (some ["err-2"]) (some ["sample-2"])).2.1.1
      ["err-2"] rfl,
   (C6_per_request_isolation prevDemoState none (some ["err-2"]) (some ["sample-2"])).2.2.2.2.1
      (by decide) (by decide)⟩

/-- C7: appending a member event to an incident never de-escalates its
severity — the tier after the append is at least as severe (its rank at most
that of the tier before), and hence severity is monotone along any sequence
of appends within one incident's lifetime. -/
theorem C7_severity_monotone :
    (∀ (inc : SpecIncident) (hint : Option String),
      ((appendEvent inc hint).severity).rank ≤ inc.severity.rank) ∧
    (∀ (inc : SpecIncident) (hints : List (Option String)),
      ((hints.foldl appendEvent inc).severity).rank ≤ inc.severity.rank) := by
  have hstep : ∀ (inc : SpecIncident) (hint : Option String),
      ((appendEvent inc hint).severity).rank ≤ inc.severity.rank := by
    intro inc hint
    show (moreSevere inc.severity (hintTier hint)).rank ≤ inc.severity.rank
    unfold moreSevere
    split_ifs with h
    · exact le_refl _
    · omega
  refine ⟨hstep, ?_⟩
  intro inc hints
  induction hints generalizing inc with
  | nil => simp
  | cons h t ih =>
    rw [List.foldl_cons]
    exact le_trans (ih (appendEvent inc h)) (hstep inc h)

/-- C8: the Embedding Provider model is a deterministic function from text to
a fixed-length vector — identical text always yields the identical vector,
and the output dimension is constant across all inputs. -/
theorem C8_embedding_contract :
    (∀ t : String, (embedText t).length = embedDim) ∧
    (∀ t1 t2 : String, t1 = t2 → embedText t1 = embedText t2) := by
  constructor
  · intro t
    unfold embedText
    rw [List.length_map, List.length_range]
  · intro t1 t2 h
    rw [h]

/-- Witness for C8 at a concrete text: the embedding has the fixed dimension
and repeated invocations agree. -/
theorem C8_witness :
    (embedText "OOMKilled payments-api pod restarted").length = embedDim ∧
    embedText "OOMKilled payments-api pod restarted" =
      embedText "OOMKilled payments-api pod restarted" :=
  ⟨C8_embedding_contract.1 "OOMKilled payments-api pod restarted",
   C8_embedding_contract.2 "OOMKilled payments-api pod restarted"
     "OOMKilled payments-api pod restarted" rfl⟩

/-- C9: severity normalization of an incidents payload is frame-preserving —
an array payload maps to an output of the same length and order in which
every incident keeps all its other fields and has its severity replaced by
the normalized tier, and a non-array payload yields the empty list rather
than an error. -/
theorem C9_normalization_frame :
    (∀ l : List RawIncident, (normalizedIncidents (.arr l)).length = l.length) ∧
    (∀ (l : List RawIncident) (i : Nat) (h : i < (normalizedIncidents (.arr l)).length)
        (h2 : i < l.length),
      ((normalizedIncidents (.arr l)).get ⟨i, h⟩).rest = (l.get ⟨i, h2⟩).rest ∧
      ((normalizedIncidents (.arr l)).get ⟨i, h⟩).severity =
        some (normalizeSeverity (l.get ⟨i, h2⟩).severity)) ∧
    normalizedIncidents .nonArray = [] := by
  refine ⟨?_, ?_, rfl⟩
  · intro l
    simp [normalizedIncidents]
  · intro l i h h2
    constructor <;>
      simp [normalizedIncidents, List.get_eq_getElem, List.getElem_map, normalizeIncident]

def rawIncC9 : RawIncident := RawIncident.mk (some "HIGH") "payload-kept"

/-- Witness for C9 at a concrete one-element payload: the opaque fields are
kept verbatim and the severity is replaced by its normalized tier. -/
theorem C9_witness :
    ((normalizedIncidents (.arr [rawIncC9])).get
        ⟨0, by simp [normalizedIncidents]⟩).rest = rawIncC9.rest ∧
    ((normalizedIncidents (.arr [rawIncC9])).get
        ⟨0, by simp [normalizedIncidents]⟩).severity =
      some (normalizeSeverity rawIncC9.severity) := by
  have h := C9_normalization_frame.2.1 [rawIncC9] 0
    (by simp [normalizedIncidents]) (by simp)
  exact ⟨h.1, h.2⟩

lemma navStep_nonneg (total offset : Int) (h : 0 ≤ offset) (a : PageNav) :
    0 ≤ navStep total offset a := by
  cases a <;> unfold navStep <;> split_ifs <;>
    first
      | exact h
      | exact le_max_left 0 _

lemma navFold_nonneg (total : Int) (acts : List PageNav) :
    ∀ offset : Int, 0 ≤ offset → 0 ≤ acts.foldl (navStep total) offset := by
  induction acts with
  | nil => intro offset h; simpa using h
  | cons a rest ih =>
    intro offset h
    rw [List.foldl_cons]
    exact ih _ (navStep_nonneg total offset h a)

/-- C10: every paged evidence request sends and stores `max(0, requested)`,
so the offset sent in the query and the stored offset are never negative;
the stored offset stays non-negative under every sequence of Prev/Next
navigations from a freshly opened incident; Prev is disabled at offset 0 and
Next is disabled exactly once the offset plus the page limit reaches the
reported total. -/
theorem C10_pagination_bounds :
    (∀ n : Int, pageRequestOffset n = max 0 n ∧ pageStoredOffset n = max 0 n ∧
      0 ≤ pageRequestOffset n ∧ 0 ≤ pageStoredOffset n) ∧
    (∀ (total : Int) (acts : List PageNav), 0 ≤ navRun total acts) ∧
    (∀ loading : Bool, prevDisabled 0 loading = true) ∧
    (∀ offset : Int, (prevDisabled offset false = true ↔ offset ≤ 0)) ∧
    (∀ offset total : Int,
      (nextDisabled offset total false = true ↔ total ≤ offset + incidentEventsLimit)) := by
  refine ⟨?_, ?_, ?_, ?_, ?_⟩
  · intro n
    exact ⟨rfl, rfl, le_max_left 0 n, le_max_left 0 n⟩
  · intro total acts
    exact navFold_nonneg total acts 0 le_rfl
  · intro loading
    simp [prevDisabled]
  · intro offset
    simp [prevDisabled]
  · intro offset total
    simp [nextDisabled, ge_iff_le]
